import Mathlib

/-!
Shallow embedding of the training driver in nnet/solver.py (class Solver).

Modelling conventions:
- machine floats are modelled as rationals,
- numpy arrays as lists of rationals,
- Python dicts as association lists (and, where aliasing matters, as an
  explicit heap of cells addressed by allocation order),
- randomness (minibatch choice, accuracy sub-sampling) and the external
  model / update-rule collaborators are supplied as explicit oracle
  arguments, so every definition is executable,
- Python exceptions are modelled with Except String.
-/

/-- model.params: mapping from parameter name to a numeric array. -/
abbrev Params := List (String × List ℚ)

/-- self.optim_configs: mapping from parameter name to a hyperparameter dict. -/
abbrev OptimConfigs := List (String × List (String × ℚ))

/-- The configuration surface consumed by Solver.__init__ (the fields the
claims are about; checkpoint cadence and paths are passed separately where
needed, and make_check_point never mutates the training state). -/
structure SolverConfig where
  num_train : Nat
  batch_size : Nat
  num_epochs : Nat
  print_every : Nat
  verbose : Bool
  optim_config : List (String × ℚ)
  lr_decay : ℚ
  custom_update_ld : Option (Nat → ℚ)
  num_processes : Nat

/-- The mutable attributes of a Solver instance that the claims mention.
`pool` records whether the attribute self.pool exists (Solver._reset creates
it only when self.multiprocessing, i.e. num_processes is not 1). -/
structure SolverState where
  epoch : Nat
  best_val_acc : ℚ
  best_params : Params
  loss_history : List ℚ
  train_acc_history : List ℚ
  val_acc_history : List ℚ
  model_params : Params
  optim_configs : OptimConfigs
  lr_decay : ℚ
  pool : Bool
deriving DecidableEq

/-- Oracle abstracting the data-dependent and external parts of one training
iteration: the scalar loss produced by Solver._step at iteration it, the two
accuracies returned by check_accuracy at a gated iteration it, and the
contents of model.params / self.optim_configs right after the per-parameter
update-rule application of iteration it. -/
structure TrainOracle where
  lossAt : Nat → ℚ
  trainAccAt : Nat → ℚ
  valAccAt : Nat → ℚ
  paramsAt : Nat → Params
  configsAt : Nat → OptimConfigs

/-- np.mean of a 1-d array. -/
def npMean (l : List ℚ) : ℚ := l.sum / (l.length : ℚ)

/-- np.mean(list of equally-shaped 1-d arrays, axis=0). -/
def npMeanAxis0 (gs : List (List ℚ)) : List ℚ :=
  (List.range (gs.headD []).length).map (fun i => npMean (gs.map (fun g => g.getD i 0)))

/-- Helper for npArgmax: running first-index-of-maximum scan. -/
def npArgmaxAux : List ℚ → Nat → Nat → ℚ → Nat
  | [], _, bi, _ => bi
  | x :: rest, i, bi, bv =>
      if bv < x then npArgmaxAux rest (i + 1) i x else npArgmaxAux rest (i + 1) bi bv

/-- np.argmax of a 1-d array: first index attaining the maximum. -/
def npArgmax : List ℚ → Nat
  | [] => 0
  | x :: rest => npArgmaxAux rest 1 0 x

/-- np.array_split(l, n): n contiguous parts whose sizes differ by at most 1
(the first l.length mod n parts get the extra element).  Only invoked with
n = num_processes, which is at least 2 on the pooled path. -/
def array_split {α : Type} (l : List α) (n : Nat) : List (List α) :=
  (List.range n).map (fun i =>
    let q := l.length / n
    let r := l.length % n
    (l.drop (i * q + min i r)).take (q + (if i < r then 1 else 0)))

/-- np.mean(y_pred == y) for two label vectors: fraction of exact matches
(numpy elementwise comparison needs equal shapes; on a shape mismatch the
comparison degenerates to the scalar False, whose mean is 0). -/
def npMeanEq (a b : List Nat) : ℚ :=
  if a.length = b.length then
    ((((a.zip b).countP (fun pr => pr.1 == pr.2)) : Nat) : ℚ) / (a.length : ℚ)
  else 0

/-- Solver._reset (solver.py lines 221-242): reset the book-keeping fields,
deep-copy self.optim_config once per model parameter (the per-cell heap view
of this copy is modelled separately below), and create the worker pool
exactly when self.multiprocessing = bool(num_processes - 1) is true. -/
def solverReset (cfg : SolverConfig) (s : SolverState) : SolverState :=
  { s with
    epoch := 0
    best_val_acc := 0
    best_params := []
    loss_history := []
    train_acc_history := []
    val_acc_history := []
    optim_configs := s.model_params.map (fun pw => (pw.1, cfg.optim_config.map (fun kv => kv)))
    pool := decide (cfg.num_processes ≠ 1) }

/-- iterations_per_epoch = max(num_train / batch_size, 1), Python 2 integer
floor division (solver.py line 403). -/
def iterationsPerEpoch (cfg : SolverConfig) : Nat :=
  max (cfg.num_train / cfg.batch_size) 1

/-- num_iterations = int(num_epochs * iterations_per_epoch) (line 404). -/
def numIterations (cfg : SolverConfig) : Nat :=
  cfg.num_epochs * iterationsPerEpoch cfg

/-- The accuracy-evaluation gate of Solver.train (lines 414-421), exactly as
written in the source: first_it or last_it or epoch_end or verbose, where
last_it compares it against num_iterations + 1. -/
def evalGate (cfg : SolverConfig) (ipe ni it : Nat) : Bool :=
  (it == 0) || (it == ni + 1) || ((it + 1) % ipe == 0) ||
    (cfg.verbose && (it + 1) % cfg.print_every == 0)

/-- The effect of Solver._step (lines 244-296) on the solver state: append
the iteration loss to loss_history, and per-parameter update-rule
application replacing model.params and self.optim_configs (the minibatch
sampling, the single or pooled loss/gradient evaluation and the update rule
itself are external or random, hence read from the oracle). -/
def stepBook (o : TrainOracle) (s : SolverState) (it : Nat) : SolverState :=
  { s with
    loss_history := s.loss_history ++ [o.lossAt it]
    model_params := o.paramsAt it
    optim_configs := o.configsAt it }

/-- The gated accuracy block of Solver.train (lines 422-441): append both
accuracies, then on strict improvement of val_acc record it and deep-copy
model.params as the best snapshot. -/
def accUpdate (o : TrainOracle) (s : SolverState) (it : Nat) : SolverState :=
  let train_acc := o.trainAccAt it
  let val_acc := o.valAccAt it
  let s1 := { s with
    train_acc_history := s.train_acc_history ++ [train_acc]
    val_acc_history := s.val_acc_history ++ [val_acc] }
  if s1.best_val_acc < val_acc then
    { s1 with best_val_acc := val_acc, best_params := o.paramsAt it }
  else s1

/-- In-place multiplication of the learning_rate field of one per-parameter
config dict (line 455). -/
def lrScale (d : ℚ) (c : List (String × ℚ)) : List (String × ℚ) :=
  c.map (fun kv => if kv.1 = "learning_rate" then (kv.1, kv.2 * d) else kv)

/-- The epoch-boundary block of Solver.train (lines 447-460): increment the
epoch counter, optionally recompute lr_decay from the new epoch, multiply
every learning rate by lr_decay; make_check_point only writes externally and
changes no solver attribute. -/
def epochUpdate (cfg : SolverConfig) (s : SolverState) : SolverState :=
  let s1 := { s with epoch := s.epoch + 1 }
  let s2 := match cfg.custom_update_ld with
    | some f => { s1 with lr_decay := f s1.epoch }
    | none => s1
  { s2 with optim_configs := s2.optim_configs.map (fun pc => (pc.1, lrScale s2.lr_decay pc.2)) }

/-- One iteration of the training loop body (lines 407-460). -/
def trainStep (o : TrainOracle) (cfg : SolverConfig) (ipe ni : Nat)
    (s : SolverState) (it : Nat) : SolverState :=
  let s1 := stepBook o s it
  let s2 := if evalGate cfg ipe ni it then accUpdate o s1 it else s1
  if (it + 1) % ipe == 0 then epochUpdate cfg s2 else s2

/-- The iteration loop of Solver.train folded over a list of iteration
indices. -/
def trainFold (o : TrainOracle) (cfg : SolverConfig) (ipe ni : Nat)
    (L : List Nat) (s : SolverState) : SolverState :=
  L.foldl (trainStep o cfg ipe ni) s

/-- Solver.train (lines 398-465): run the iteration loop, then the terminal
actions of lines 462-465: swap the best snapshot into model.params and tear
the pool down.  When num_processes is 1, _reset never created self.pool, so
self.pool.terminate() raises AttributeError (after the swap already
happened). -/
def Solver.train (o : TrainOracle) (cfg : SolverConfig) (s : SolverState) :
    Except String SolverState :=
  let ipe := iterationsPerEpoch cfg
  let ni := numIterations cfg
  let s1 := trainFold o cfg ipe ni (List.range ni) s
  let s2 := { s1 with model_params := s1.best_params }
  if s2.pool then Except.ok { s2 with pool := false }
  else Except.error "AttributeError: Solver instance has no attribute pool"

/-- The iterations of a run at which the evaluation gate fires. -/
def evalIters (cfg : SolverConfig) : List Nat :=
  (List.range (numIterations cfg)).filter
    (evalGate cfg (iterationsPerEpoch cfg) (numIterations cfg))

/-- The assert of Solver.check_accuracy, line 355, exactly as written:
assert (y is None and return_preds) or not (y is None and return_preds). -/
def check_accuracy_assert (yIsNone return_preds : Bool) : Bool :=
  (yIsNone && return_preds) || !(yIsNone && return_preds)

/-- Solver.check_accuracy (lines 339-396).  mask models the random index
vector drawn by np.random.choice(N, num_samples) when sub-sampling; the
model forward pass model.loss(X) is the external model_scores.  The solver
state is threaded through so frame effects are visible. -/
def Solver.check_accuracy (cfg : SolverConfig) (model_scores : List ℚ → List ℚ)
    (s : SolverState) (X : List (List ℚ)) (y : Option (List Nat))
    (num_samples : Option Nat) (batch_size : Nat) (return_preds : Bool)
    (mask : List Nat) : Except String ((ℚ ⊕ List Nat) × SolverState) :=
  if check_accuracy_assert y.isNone return_preds then
    let N := X.length
    -- maybe subsample (lines 358-363); y[mask] with y = None raises.
    let sub : Except String (List (List ℚ) × Option (List Nat) × Nat) :=
      match num_samples with
      | some ns =>
          if ns < N then
            match y with
            | none => Except.error "TypeError: NoneType object is not subscriptable"
            | some ys =>
                Except.ok ((List.range ns).map (fun j => X.getD (mask.getD j 0) []),
                  some ((List.range ns).map (fun j => ys.getD (mask.getD j 0) 0)), ns)
          else Except.ok (X, y, N)
      | none => Except.ok (X, y, N)
    match sub with
    | Except.error e => Except.error e
    | Except.ok (X2, y2, N2) =>
        -- num_batches = N / batch_size, plus one for a ragged last chunk
        if batch_size = 0 then Except.error "ZeroDivisionError: integer division by zero"
        else
          let num_batches := N2 / batch_size + (if N2 % batch_size = 0 then 0 else 1)
          let y_pred := (List.range num_batches).foldl (fun acc i =>
            let chunk := (X2.drop (i * batch_size)).take batch_size
            let preds :=
              if cfg.num_processes = 1 then
                chunk.map (fun x => npArgmax (model_scores x))
              else
                ((array_split chunk cfg.num_processes).map
                  (fun sub2 => sub2.map (fun x => npArgmax (model_scores x)))).flatten
            acc ++ preds) []
          if return_preds then Except.ok (Sum.inr y_pred, s)
          else
            let acc := match y2 with
              | some ys => npMeanEq y_pred ys
              | none => 0
            Except.ok (Sum.inl acc, s)
  else Except.error "AssertionError"

/-- The fields of a Checkpoint Record restored by load_current_checkpoint
(lines 309-314). -/
structure CheckpointRecord where
  epoch : Nat
  best_val_acc : ℚ
  best_params : Params
  loss_history : List ℚ
  train_acc_history : List ℚ
  val_acc_history : List ℚ

/-- Outcome of os.listdir(self.load_dir): a missing or unreadable directory
raises OSError, a readable one returns its entries. -/
inductive LoadDir where
  | missing
  | dir (entries : List String)

/-- str.split on a single separator character, at the character-list level
(Python str.split keeps empty fields, and splitting the empty string gives
one empty field). -/
def splitOnChar (c : Char) : List Char → List (List Char)
  | [] => [[]]
  | x :: rest =>
      let r := splitOnChar c rest
      if x = c then [] :: r
      else
        match r with
        | [] => [[x]]
        | h :: t => (x :: h) :: t

/-- int() on a digit string: every character must be a decimal digit. -/
def parseNatChars (cs : List Char) : Option Nat :=
  if cs = [] then none
  else cs.foldl (fun acc c =>
    acc.bind (fun n => if c.isDigit then some (n * 10 + (c.toNat - 48)) else none))
    (some 0)

/-- int() with an optional leading minus sign. -/
def parseIntChars : List Char → Option Int
  | '-' :: rest => (parseNatChars rest).map (fun n => -(n : Int))
  | cs => (parseNatChars cs).map (fun n => (n : Int))

/-- int(f.split(chr(95))[1]): the int() parse of the second underscore field
of a checkpoint entry name; none models the IndexError / ValueError raised
inside the try block. -/
def cpParseNum (f : String) : Option Int :=
  ((splitOnChar '_' f.data)[1]?).bind parseIntChars

/-- The body of the try block of load_current_checkpoint (lines 303-314):
parse every entry name, take the numerically largest epoch tag, deserialize
that record from the checkpoint store and overwrite the book-keeping fields.
Any failure (unparseable entry, empty listing, unreadable record) is none. -/
def cpTryBody (path_checkpoints : String) (store : String → Option CheckpointRecord)
    (entries : List String) (s : SolverState) : Option SolverState := do
  let nums ← entries.mapM cpParseNum
  let num ← nums.max?
  let name := "check_" ++ toString num
  let cp ← store (path_checkpoints ++ "/" ++ name ++ "/" ++ name ++ ".pkl")
  pure { s with
    epoch := cp.epoch
    best_val_acc := cp.best_val_acc
    best_params := cp.best_params
    loss_history := cp.loss_history
    train_acc_history := cp.train_acc_history
    val_acc_history := cp.val_acc_history }

/-- Solver.load_current_checkpoint (lines 298-317).  os.listdir runs outside
the try block, so a missing or unreadable load_dir propagates OSError; every
failure inside the try block is swallowed by the bare except, which calls
self._reset(). -/
def Solver.load_current_checkpoint (ld : LoadDir) (path_checkpoints : String)
    (store : String → Option CheckpointRecord) (cfg : SolverConfig) (s : SolverState) :
    Except String SolverState :=
  match ld with
  | LoadDir.missing => Except.error "OSError: cannot list load_dir"
  | LoadDir.dir entries =>
      match cpTryBody path_checkpoints store entries s with
      | some s2 => Except.ok s2
      | none => Except.ok (solverReset cfg s)

/-- Python dict assignment d[k] = v: replace the entry in place if the key
exists, else append it. -/
def dictSet (d : List (String × ℚ)) (k : String) (v : ℚ) : List (String × ℚ) :=
  if d.any (fun kv => kv.1 = k) then
    d.map (fun kv => if kv.1 = k then (k, v) else kv)
  else d ++ [(k, v)]

/-- Heap view of the loop of Solver._reset lines 235-238: for p in
model.params, allocate one fresh dict cell per parameter name, in iteration
order starting at cell id i.  The returned association maps each parameter
name to the id of its own cell. -/
def mkOptimConfigRefs : List String → Nat → List (String × Nat)
  | [], _ => []
  | p :: rest, i => (p, i) :: mkOptimConfigRefs rest (i + 1)

/-- The corresponding heap cells: each parameter gets a fresh dict whose
contents copy the solver-level optim_config entry by entry (the dict
comprehension of line 237). -/
def mkOptimConfigCells (oc : List (String × ℚ)) : List String → List (List (String × ℚ))
  | [] => []
  | _ :: rest => oc.map (fun kv => (kv.1, kv.2)) :: mkOptimConfigCells oc rest

/-- Read the dict stored in heap cell i. -/
def heapRead (cells : List (List (String × ℚ))) (i : Nat) : List (String × ℚ) :=
  cells.getD i []

/-- Mutate heap cell i in place by the dict assignment cell[k] = v (the shape
of both the in-place hyperparameter writes and the learning-rate decay
multiplication of line 455). -/
def heapWrite (cells : List (List (String × ℚ))) (i : Nat) (k : String) (v : ℚ) :
    List (List (String × ℚ)) :=
  cells.set i (dictSet (heapRead cells i) k v)

/-- The aggregated scalar loss of the parallel path of Solver._step,
line 283: loss = np.mean(losses). -/
def stepAggLoss (losses : List ℚ) : ℚ := npMean losses

/-- The aggregated gradient of the parallel path of Solver._step, line 286:
grads[p] = np.mean([grad[p] for grad in gradses], axis=0). -/
def stepAggGrad (gradses : List (String → List ℚ)) (p : String) : List ℚ :=
  npMeanAxis0 (gradses.map (fun g => g p))

/-- Spec-side definition, from the words of the claim: the arithmetic mean
of the per-shard losses. -/
def specShardLossMean (losses : List ℚ) : ℚ := losses.sum / (losses.length : ℚ)

/-- Spec-side definition, from the words of the claim: element i of the
elementwise arithmetic mean of the per-shard gradient arrays for key p. -/
def specElementwiseMeanAt (gradses : List (String → List ℚ)) (p : String) (i : Nat) : ℚ :=
  (gradses.map (fun g => (g p).getD i 0)).sum / ((gradses.length : Nat) : ℚ)

/-- The pair of best-model fields tracked by the loop. -/
def bestPair (s : SolverState) : ℚ × Params := (s.best_val_acc, s.best_params)

/-- The strict-improvement best tracker of lines 437-441 in isolation, over
a list of evaluation events: on val_acc strictly above the best so far,
record the accuracy and the snapshot. -/
def runBest {ι α : Type} (acc : ι → ℚ) (snap : ι → α) : List ι → ℚ × α → ℚ × α
  | [], bp => bp
  | it :: rest, bp =>
      runBest acc snap rest (if bp.1 < acc it then (acc it, snap it) else bp)

/-- it is a maximum of acc over l (used with find? this selects the first
occurrence of the maximum, the tie-breaking rule of the claim). -/
def isMaxIn {ι : Type} (acc : ι → ℚ) (l : List ι) (it : ι) : Bool :=
  l.all (fun jt => decide (acc jt ≤ acc it))

/-- Spec-side gate, from the words of the claim: very first iteration, final
iteration, epoch completion, or verbose cadence boundary. -/
def specEvalGate (cfg : SolverConfig) (ipe ni it : Nat) : Bool :=
  (it == 0) || (it == ni - 1) || ((it + 1) % ipe == 0) ||
    (cfg.verbose && (it + 1) % cfg.print_every == 0)

/-! ### Effect of one training iteration on each tracked field -/

theorem accUpdate_loss (o : TrainOracle) (s : SolverState) (it : Nat) :
    (accUpdate o s it).loss_history = s.loss_history := by
  unfold accUpdate; dsimp only; split <;> rfl

theorem accUpdate_pool (o : TrainOracle) (s : SolverState) (it : Nat) :
    (accUpdate o s it).pool = s.pool := by
  unfold accUpdate; dsimp only; split <;> rfl

theorem accUpdate_train_acc (o : TrainOracle) (s : SolverState) (it : Nat) :
    (accUpdate o s it).train_acc_history = s.train_acc_history ++ [o.trainAccAt it] := by
  unfold accUpdate; dsimp only; split <;> rfl

theorem accUpdate_val_acc (o : TrainOracle) (s : SolverState) (it : Nat) :
    (accUpdate o s it).val_acc_history = s.val_acc_history ++ [o.valAccAt it] := by
  unfold accUpdate; dsimp only; split <;> rfl

theorem accUpdate_best (o : TrainOracle) (s : SolverState) (it : Nat) :
    bestPair (accUpdate o s it) =
      if (bestPair s).1 < o.valAccAt it then (o.valAccAt it, o.paramsAt it)
      else bestPair s := by
  unfold accUpdate bestPair; dsimp only; split <;> simp_all

theorem epochUpdate_loss (cfg : SolverConfig) (s : SolverState) :
    (epochUpdate cfg s).loss_history = s.loss_history := by
  unfold epochUpdate; cases cfg.custom_update_ld <;> rfl

theorem epochUpdate_pool (cfg : SolverConfig) (s : SolverState) :
    (epochUpdate cfg s).pool = s.pool := by
  unfold epochUpdate; cases cfg.custom_update_ld <;> rfl

theorem epochUpdate_train_acc (cfg : SolverConfig) (s : SolverState) :
    (epochUpdate cfg s).train_acc_history = s.train_acc_history := by
  unfold epochUpdate; cases cfg.custom_update_ld <;> rfl

theorem epochUpdate_val_acc (cfg : SolverConfig) (s : SolverState) :
    (epochUpdate cfg s).val_acc_history = s.val_acc_history := by
  unfold epochUpdate; cases cfg.custom_update_ld <;> rfl

theorem epochUpdate_best (cfg : SolverConfig) (s : SolverState) :
    bestPair (epochUpdate cfg s) = bestPair s := by
  unfold epochUpdate bestPair; cases cfg.custom_update_ld <;> rfl

theorem trainStep_loss (o : TrainOracle) (cfg : SolverConfig) (ipe ni : Nat)
    (s : SolverState) (it : Nat) :
    (trainStep o cfg ipe ni s it).loss_history = s.loss_history ++ [o.lossAt it] := by
  unfold trainStep; dsimp only
  split <;> split <;> simp [epochUpdate_loss, accUpdate_loss, stepBook]

theorem trainStep_pool (o : TrainOracle) (cfg : SolverConfig) (ipe ni : Nat)
    (s : SolverState) (it : Nat) :
    (trainStep o cfg ipe ni s it).pool = s.pool := by
  unfold trainStep; dsimp only
  split <;> split <;> simp [epochUpdate_pool, accUpdate_pool, stepBook]

theorem trainStep_train_acc (o : TrainOracle) (cfg : SolverConfig) (ipe ni : Nat)
    (s : SolverState) (it : Nat) :
    (trainStep o cfg ipe ni s it).train_acc_history =
      if evalGate cfg ipe ni it then s.train_acc_history ++ [o.trainAccAt it]
      else s.train_acc_history := by
  unfold trainStep; dsimp only
  split <;> split <;> simp_all [epochUpdate_train_acc, accUpdate_train_acc, stepBook]

theorem trainStep_val_acc (o : TrainOracle) (cfg : SolverConfig) (ipe ni : Nat)
    (s : SolverState) (it : Nat) :
    (trainStep o cfg ipe ni s it).val_acc_history =
      if evalGate cfg ipe ni it then s.val_acc_history ++ [o.valAccAt it]
      else s.val_acc_history := by
  unfold trainStep; dsimp only
  split <;> split <;> simp_all [epochUpdate_val_acc, accUpdate_val_acc, stepBook]

theorem stepBook_best (o : TrainOracle) (s : SolverState) (it : Nat) :
    bestPair (stepBook o s it) = bestPair s := rfl

theorem trainStep_best (o : TrainOracle) (cfg : SolverConfig) (ipe ni : Nat)
    (s : SolverState) (it : Nat) :
    bestPair (trainStep o cfg ipe ni s it) =
      if evalGate cfg ipe ni it then
        (if (bestPair s).1 < o.valAccAt it then (o.valAccAt it, o.paramsAt it)
         else bestPair s)
      else bestPair s := by
  unfold trainStep; dsimp only
  split <;> split <;>
    simp_all [epochUpdate_best, accUpdate_best, stepBook_best]

/-! ### The iteration loop, folded -/

theorem trainFold_cons (o : TrainOracle) (cfg : SolverConfig) (ipe ni it : Nat)
    (L : List Nat) (s : SolverState) :
    trainFold o cfg ipe ni (it :: L) s =
      trainFold o cfg ipe ni L (trainStep o cfg ipe ni s it) := rfl

theorem trainFold_loss (o : TrainOracle) (cfg : SolverConfig) (ipe ni : Nat) :
    ∀ (L : List Nat) (s : SolverState),
      (trainFold o cfg ipe ni L s).loss_history = s.loss_history ++ L.map o.lossAt := by
  intro L
  induction L with
  | nil => intro s; simp [trainFold]
  | cons it L ih =>
      intro s
      rw [trainFold_cons, ih, trainStep_loss]
      simp

theorem trainFold_pool (o : TrainOracle) (cfg : SolverConfig) (ipe ni : Nat) :
    ∀ (L : List Nat) (s : SolverState), (trainFold o cfg ipe ni L s).pool = s.pool := by
  intro L
  induction L with
  | nil => intro s; rfl
  | cons it L ih => intro s; rw [trainFold_cons, ih, trainStep_pool]

theorem trainFold_train_acc (o : TrainOracle) (cfg : SolverConfig) (ipe ni : Nat) :
    ∀ (L : List Nat) (s : SolverState),
      (trainFold o cfg ipe ni L s).train_acc_history =
        s.train_acc_history ++ (L.filter (evalGate cfg ipe ni)).map o.trainAccAt := by
  intro L
  induction L with
  | nil => intro s; simp [trainFold]
  | cons it L ih =>
      intro s
      rw [trainFold_cons, ih, trainStep_train_acc, List.filter_cons]
      by_cases h : evalGate cfg ipe ni it = true <;> simp [h]

theorem trainFold_val_acc (o : TrainOracle) (cfg : SolverConfig) (ipe ni : Nat) :
    ∀ (L : List Nat) (s : SolverState),
      (trainFold o cfg ipe ni L s).val_acc_history =
        s.val_acc_history ++ (L.filter (evalGate cfg ipe ni)).map o.valAccAt := by
  intro L
  induction L with
  | nil => intro s; simp [trainFold]
  | cons it L ih =>
      intro s
      rw [trainFold_cons, ih, trainStep_val_acc, List.filter_cons]
      by_cases h : evalGate cfg ipe ni it = true <;> simp [h]

theorem runBest_cons {ι α : Type} (acc : ι → ℚ) (snap : ι → α) (it : ι)
    (rest : List ι) (bp : ℚ × α) :
    runBest acc snap (it :: rest) bp =
      runBest acc snap rest (if bp.1 < acc it then (acc it, snap it) else bp) := rfl

theorem trainFold_best (o : TrainOracle) (cfg : SolverConfig) (ipe ni : Nat) :
    ∀ (L : List Nat) (s : SolverState),
      bestPair (trainFold o cfg ipe ni L s) =
        runBest o.valAccAt o.paramsAt (L.filter (evalGate cfg ipe ni)) (bestPair s) := by
  intro L
  induction L with
  | nil => intro s; rfl
  | cons it L ih =>
      intro s
      rw [trainFold_cons, ih, trainStep_best, List.filter_cons]
      by_cases h : evalGate cfg ipe ni it = true
      · simp only [h, if_true, runBest_cons]
      · simp [h]

/-! ### The strict-improvement tracker selects the first maximum -/

theorem list_find?_congr {ι : Type} {p q : ι → Bool} :
    ∀ {l : List ι}, (∀ x ∈ l, p x = q x) → l.find? p = l.find? q := by
  intro l
  induction l with
  | nil => intro _; rfl
  | cons a l ih =>
      intro h
      by_cases ha : p a = true
      · rw [List.find?_cons_of_pos _ ha, List.find?_cons_of_pos]
        rw [← h a (by simp)]; exact ha
      · rw [List.find?_cons_of_neg _ ha, List.find?_cons_of_neg, ih]
        · intro x hx; exact h x (by simp [hx])
        · rw [← h a (by simp)]; exact ha

theorem runBest_of_all_le {ι α : Type} (acc : ι → ℚ) (snap : ι → α) :
    ∀ (l : List ι) (b : ℚ) (q : α), (∀ it ∈ l, acc it ≤ b) →
      runBest acc snap l (b, q) = (b, q) := by
  intro l
  induction l with
  | nil => intro b q _; rfl
  | cons it rest ih =>
      intro b q h
      rw [runBest_cons]
      rw [if_neg (not_lt.mpr (h it (by simp)))]
      exact ih b q (fun jt hjt => h jt (by simp [hjt]))

theorem runBest_first_max {ι α : Type} (acc : ι → ℚ) (snap : ι → α) :
    ∀ (l : List ι) (b : ℚ) (q : α), (∃ it ∈ l, b < acc it) →
      ∃ its, l.find? (isMaxIn acc l) = some its ∧
        runBest acc snap l (b, q) = (acc its, snap its) := by
  intro l
  induction l with
  | nil =>
      rintro b q ⟨it, hit, -⟩
      cases hit
  | cons it rest ih =>
      rintro b q ⟨w, hw, hbw⟩
      rw [runBest_cons]
      by_cases hba : (b, q).1 < acc it
      · rw [if_pos hba]
        by_cases hrest : ∃ jt ∈ rest, acc it < acc jt
        · obtain ⟨its, hfind, hval⟩ := ih (acc it) (snap it) hrest
          refine ⟨its, ?_, hval⟩
          obtain ⟨jt, hjt, hgt⟩ := hrest
          have hhead : ¬ (isMaxIn acc (it :: rest) it = true) := by
            simp only [isMaxIn, List.all_eq_true, decide_eq_true_eq]
            push_neg
            exact ⟨jt, by simp [hjt], hgt⟩
          rw [List.find?_cons_of_neg _ hhead]
          have hcong : ∀ x ∈ rest, isMaxIn acc (it :: rest) x = isMaxIn acc rest x := by
            intro x hx
            simp only [isMaxIn, List.all_cons]
            by_cases hmx : rest.all (fun jt2 => decide (acc jt2 ≤ acc x)) = true
            · have hjx : acc jt ≤ acc x := by
                simpa using (List.all_eq_true.mp hmx) jt hjt
              have hix : acc it ≤ acc x := le_of_lt (lt_of_lt_of_le hgt hjx)
              simp [hmx, hix]
            · simp [hmx]
          rw [list_find?_congr hcong]
          exact hfind
        · push_neg at hrest
          refine ⟨it, ?_, runBest_of_all_le acc snap rest (acc it) (snap it) hrest⟩
          apply List.find?_cons_of_pos
          simp only [isMaxIn, List.all_cons, Bool.and_eq_true, List.all_eq_true,
            decide_eq_true_eq]
          exact ⟨le_refl _, fun jt hjt => hrest jt hjt⟩
      · rw [if_neg hba]
        have hait : acc it ≤ b := not_lt.mp hba
        have hw' : ∃ jt ∈ rest, b < acc jt := by
          rcases List.mem_cons.mp hw with h1 | h1
          · exact absurd (h1 ▸ hbw) hba
          · exact ⟨w, h1, hbw⟩
        obtain ⟨its, hfind, hval⟩ := ih b q hw'
        refine ⟨its, ?_, hval⟩
        obtain ⟨jt, hjt, hgt⟩ := hw'
        have hhead : ¬ (isMaxIn acc (it :: rest) it = true) := by
          simp only [isMaxIn, List.all_eq_true, decide_eq_true_eq]
          push_neg
          exact ⟨jt, by simp [hjt], lt_of_le_of_lt hait hgt⟩
        rw [List.find?_cons_of_neg _ hhead]
        have hcong : ∀ x ∈ rest, isMaxIn acc (it :: rest) x = isMaxIn acc rest x := by
          intro x hx
          simp only [isMaxIn, List.all_cons]
          by_cases hmx : rest.all (fun jt2 => decide (acc jt2 ≤ acc x)) = true
          · have hjx : acc jt ≤ acc x := by
              simpa using (List.all_eq_true.mp hmx) jt hjt
            have hix : acc it ≤ acc x := le_trans hait (le_trans (le_of_lt hgt) hjx)
            simp [hmx, hix]
          · simp [hmx]
        rw [list_find?_congr hcong]
        exact hfind

/-! ### Per-parameter config cells: allocation and independence -/

theorem mkRefs_lookup_some :
    ∀ (params : List String) (i : Nat) (p : String), p ∈ params →
      ∃ j, (mkOptimConfigRefs params i).lookup p = some j ∧ i ≤ j ∧ j < i + params.length := by
  intro params
  induction params with
  | nil => intro i p hp; cases hp
  | cons x rest ih =>
      intro i p hp
      by_cases hpx : p = x
      · refine ⟨i, ?_, le_refl i, by simp⟩
        simp [mkOptimConfigRefs, List.lookup_cons, hpx]
      · rcases List.mem_cons.mp hp with h | h
        · exact absurd h hpx
        · obtain ⟨j, hl, hij, hjlt⟩ := ih (i + 1) p h
          have hbx : (p == x) = false := beq_eq_false_iff_ne.mpr hpx
          refine ⟨j, ?_, by omega, ?_⟩
          · simpa [mkOptimConfigRefs, List.lookup_cons, hbx] using hl
          · simp only [List.length_cons]; omega

theorem mkRefs_lookup_ne :
    ∀ (params : List String) (i : Nat) (p q : String), params.Nodup →
      p ∈ params → q ∈ params → p ≠ q →
      ∀ jp jq, (mkOptimConfigRefs params i).lookup p = some jp →
        (mkOptimConfigRefs params i).lookup q = some jq → jp ≠ jq := by
  intro params
  induction params with
  | nil => intro i p q _ hp; cases hp
  | cons x rest ih =>
      intro i p q hnd hp hq hpq jp jq hjp hjq
      rcases List.nodup_cons.mp hnd with ⟨hxnot, hndr⟩
      by_cases hpx : p = x
      · have hq' : q ∈ rest := by
          rcases List.mem_cons.mp hq with h | h
          · exact absurd (hpx.trans h.symm) hpq
          · exact h
        have hjp' : jp = i := by
          have := hjp
          simp [mkOptimConfigRefs, List.lookup_cons, hpx] at this
          omega
        have hqx : q ≠ x := by
          rintro rfl; exact hxnot hq'
        have hjq' : (mkOptimConfigRefs rest (i + 1)).lookup q = some jq := by
          have hbq : (q == x) = false := beq_eq_false_iff_ne.mpr hqx
          simpa [mkOptimConfigRefs, List.lookup_cons, hbq] using hjq
        obtain ⟨j, hl, hij, _⟩ := mkRefs_lookup_some rest (i + 1) q hq'
        rw [hl] at hjq'
        have : j = jq := Option.some.inj hjq'
        omega
      · by_cases hqx : q = x
        · have hp' : p ∈ rest := by
            rcases List.mem_cons.mp hp with h | h
            · exact absurd h hpx
            · exact h
          have hjq' : jq = i := by
            have := hjq
            simp [mkOptimConfigRefs, List.lookup_cons, hqx] at this
            omega
          have hjp' : (mkOptimConfigRefs rest (i + 1)).lookup p = some jp := by
            have hbp : (p == x) = false := beq_eq_false_iff_ne.mpr hpx
            simpa [mkOptimConfigRefs, List.lookup_cons, hbp] using hjp
          obtain ⟨j, hl, hij, _⟩ := mkRefs_lookup_some rest (i + 1) p hp'
          rw [hl] at hjp'
          have : j = jp := Option.some.inj hjp'
          omega
        · have hp' : p ∈ rest := by
            rcases List.mem_cons.mp hp with h | h
            · exact absurd h hpx
            · exact h
          have hq' : q ∈ rest := by
            rcases List.mem_cons.mp hq with h | h
            · exact absurd h hqx
            · exact h
          have hbp : (p == x) = false := beq_eq_false_iff_ne.mpr hpx
          have hbq : (q == x) = false := beq_eq_false_iff_ne.mpr hqx
          exact ih (i + 1) p q hndr hp' hq' hpq jp jq
            (by simpa [mkOptimConfigRefs, List.lookup_cons, hbp] using hjp)
            (by simpa [mkOptimConfigRefs, List.lookup_cons, hbq] using hjq)

theorem mkCells_read (oc : List (String × ℚ)) :
    ∀ (params : List String) (j : Nat), j < params.length →
      heapRead (mkOptimConfigCells oc params) j = oc := by
  intro params
  induction params with
  | nil => intro j h; exact absurd h (Nat.not_lt_zero j)
  | cons x rest ih =>
      intro j h
      cases j with
      | zero => simp [heapRead, mkOptimConfigCells]
      | succ j =>
          have hj : j < rest.length := by
            simp only [List.length_cons] at h; omega
          simpa [heapRead, mkOptimConfigCells] using ih j hj

theorem heapWrite_ne (cells : List (List (String × ℚ))) (ip iq : Nat) (k : String) (v : ℚ)
    (h : ip ≠ iq) : heapRead (heapWrite cells ip k v) iq = heapRead cells iq := by
  unfold heapRead heapWrite
  rw [List.getD_eq_getElem?_getD, List.getElem?_set_ne h, ← List.getD_eq_getElem?_getD]

/-! ### Concrete fixtures used by witnesses and counterexamples -/

/-- A sample freshly constructed solver state (model with one parameter). -/
def demoState : SolverState :=
  { epoch := 0, best_val_acc := 0, best_params := [], loss_history := [],
    train_acc_history := [], val_acc_history := [], model_params := [("W", [1, 2])],
    optim_configs := [], lr_decay := 1, pool := false }

/-- A dirty state, to watch the checkpoint fallback reset it. -/
def dirtyState : SolverState :=
  { epoch := 7, best_val_acc := 1/2, best_params := [("W", [9])], loss_history := [1],
    train_acc_history := [1], val_acc_history := [1], model_params := [("W", [1])],
    optim_configs := [], lr_decay := 1, pool := false }

/-- The default single-process configuration (num_processes = 1), with the
degenerate epoch count 0. -/
def cfgSingle : SolverConfig :=
  { num_train := 8, batch_size := 4, num_epochs := 0, print_every := 10, verbose := false,
    optim_config := [("learning_rate", 1/100)], lr_decay := 1, custom_update_ld := none,
    num_processes := 1 }

/-- Same degenerate configuration but with a two-worker pool. -/
def cfgPooled : SolverConfig := { cfgSingle with num_processes := 2 }

/-- The spec scenario: batch_size=4, num_epochs=1, 8 training items (pooled so
that the terminal teardown of train() succeeds). -/
def cfgScenario : SolverConfig := { cfgSingle with num_epochs := 1, num_processes := 2 }

/-- A one-iteration pooled configuration (num_train=1, batch_size=1,
num_epochs=1). -/
def cfgOneIter : SolverConfig :=
  { cfgSingle with num_train := 1, batch_size := 1, num_epochs := 1, num_processes := 2 }

/-- Oracle with all-zero losses and accuracies. -/
def zeroOracle : TrainOracle :=
  { lossAt := fun _ => 0, trainAccAt := fun _ => 0, valAccAt := fun _ => 0,
    paramsAt := fun _ => [("W", [5])], configsAt := fun _ => [] }

/-- Oracle whose evaluations all report validation accuracy 1/2. -/
def posOracle : TrainOracle :=
  { lossAt := fun _ => 0, trainAccAt := fun _ => 0, valAccAt := fun _ => 1/2,
    paramsAt := fun _ => [("W", [3])], configsAt := fun _ => [] }

/-! ### The claims -/

/-- C1: the claim says that for every configuration, including
num_processes = 1 and num_iterations = 0, the terminal actions of train()
(best-snapshot swap and pool teardown) complete without raising.  The code
violates this: Solver._reset creates self.pool only when num_processes is
not 1, while train() unconditionally calls self.pool.terminate(), so the
default single-process configuration raises AttributeError at the end of
train(); with a pool present the degenerate num_iterations = 0 run does
complete, swapping in the (empty) best snapshot and releasing the pool. -/
theorem claim_C1 :
    Solver.train zeroOracle cfgSingle (solverReset cfgSingle demoState)
      = Except.error "AttributeError: Solver instance has no attribute pool"
    ∧ (Solver.train zeroOracle cfgPooled (solverReset cfgPooled demoState)).map
        (fun s => (s.model_params, s.pool)) = Except.ok (([] : Params), false) :=
  ⟨rfl, rfl⟩

/-- C2: the claim says check_accuracy raises on every violation of the
predictions/labels contract.  In the code the assert of line 355 is the
tautology P or not P, so it never fires: both violating combinations
(labels together with return_preds=True, and no labels with
return_preds=False) sail through the assert and the call returns normally
instead of failing. -/
theorem claim_C2 :
    (∀ yIsNone return_preds, check_accuracy_assert yIsNone return_preds = true)
    ∧ (Solver.check_accuracy cfgSingle id demoState [[1, 0]] (some [0]) none 100 true
        []).map Prod.fst = Except.ok (Sum.inr [0])
    ∧ (Solver.check_accuracy cfgSingle id demoState [[1, 0]] none none 100 false
        []).map Prod.fst = Except.ok (Sum.inl 0) :=
  ⟨by decide, rfl, rfl⟩

/-- C3 counterexample: the claim says a missing resume directory never
propagates an exception out of load_current_checkpoint, but
os.listdir(self.load_dir) runs before the try block, so a missing directory
raises OSError to the caller. -/
theorem claim_C3_counterexample :
    Solver.load_current_checkpoint LoadDir.missing "checkpoints" (fun _ => none)
        cfgSingle dirtyState
      = Except.error "OSError: cannot list load_dir" := rfl

/-- C3 (amended): whenever the directory listing itself succeeds, no
exception propagates: any failure inside the try block (no entries,
unparseable entry names, unreadable record) falls back, via the bare except
and self._reset(), to a fresh Training State with epoch 0, empty histories
and zero best accuracy. -/
theorem claim_C3 :
    (∀ (entries : List String) (pcp : String) (store : String → Option CheckpointRecord)
        (cfg : SolverConfig) (s : SolverState),
      ∃ s2, Solver.load_current_checkpoint (LoadDir.dir entries) pcp store cfg s
              = Except.ok s2)
    ∧ (Solver.load_current_checkpoint (LoadDir.dir ["garbage"]) "checkpoints"
          (fun _ => none) cfgSingle dirtyState).map
        (fun s => (s.epoch, s.best_val_acc, s.loss_history, s.train_acc_history,
          s.val_acc_history))
        = Except.ok (0, 0, [], [], [])
    ∧ (Solver.load_current_checkpoint (LoadDir.dir []) "checkpoints"
          (fun _ => none) cfgSingle dirtyState).map
        (fun s => (s.epoch, s.best_val_acc, s.loss_history, s.train_acc_history,
          s.val_acc_history))
        = Except.ok (0, 0, [], [], []) := by
  refine ⟨?_, rfl, rfl⟩
  intro entries pcp store cfg s
  cases h : cpTryBody pcp store entries s with
  | some s2 => exact ⟨s2, by simp [Solver.load_current_checkpoint, h]⟩
  | none => exact ⟨solverReset cfg s, by simp [Solver.load_current_checkpoint, h]⟩

/-- C5: over the iterations a run actually executes, the evaluation gate of
the source coincides with the gate described by the spec (first iteration,
final iteration, epoch completion, verbose cadence boundary), and the final
iteration always triggers an evaluation.  The explicit last-iteration test
in the source (it == num_iterations + 1) is dead code, but the final
iteration always completes an epoch because num_iterations is an exact
multiple of iterations_per_epoch, so the two trigger sets are equal. -/
theorem claim_C5 (cfg : SolverConfig) (it : Nat)
    (_hbs : 0 < cfg.batch_size) (_hpe : 0 < cfg.print_every)
    (h1 : 1 ≤ numIterations cfg) (hlt : it < numIterations cfg) :
    evalGate cfg (iterationsPerEpoch cfg) (numIterations cfg) it
      = specEvalGate cfg (iterationsPerEpoch cfg) (numIterations cfg) it
    ∧ evalGate cfg (iterationsPerEpoch cfg) (numIterations cfg)
        (numIterations cfg - 1) = true := by
  have hmod : numIterations cfg % iterationsPerEpoch cfg = 0 := Nat.mul_mod_left _ _
  have h2 : (it == numIterations cfg + 1) = false := by
    simp only [beq_eq_false_iff_ne]; omega
  constructor
  · by_cases h3 : it = numIterations cfg - 1
    · have hthird : ((it + 1) % iterationsPerEpoch cfg == 0) = true := by
        rw [beq_iff_eq]
        have hit : it + 1 = numIterations cfg := by omega
        rw [hit]; exact hmod
      simp [evalGate, specEvalGate, h2, hthird]
    · have h3' : (it == numIterations cfg - 1) = false := by
        simp only [beq_eq_false_iff_ne]; exact h3
      simp [evalGate, specEvalGate, h2, h3']
  · have hthird : ((numIterations cfg - 1 + 1) % iterationsPerEpoch cfg == 0) = true := by
      rw [beq_iff_eq]
      have hit : numIterations cfg - 1 + 1 = numIterations cfg := by omega
      rw [hit]; exact hmod
    simp [evalGate, hthird]

/-- C5 witness: the scenario configuration (8 items, batch 4, one epoch) at
its second and final iteration. -/
theorem claim_C5_witness :
    (0 < cfgScenario.batch_size ∧ 0 < cfgScenario.print_every
      ∧ 1 ≤ numIterations cfgScenario ∧ 1 < numIterations cfgScenario)
    ∧ (evalGate cfgScenario (iterationsPerEpoch cfgScenario) (numIterations cfgScenario) 1
        = specEvalGate cfgScenario (iterationsPerEpoch cfgScenario)
            (numIterations cfgScenario) 1
      ∧ evalGate cfgScenario (iterationsPerEpoch cfgScenario) (numIterations cfgScenario)
          (numIterations cfgScenario - 1) = true) :=
  ⟨⟨by decide, by decide, by decide, by decide⟩,
    claim_C5 cfgScenario 1 (by decide) (by decide) (by decide) (by decide)⟩

/-- C6: the iteration loop of train() executes exactly
num_epochs * max(num_train // batch_size, 1) iterations (one loss append
each), and in the concrete scenario batch_size=4, num_epochs=1, 8 training
items, training runs 2 iterations, leaves a loss history of length 2 and an
epoch counter of 1. -/
theorem claim_C6 (o : TrainOracle) (cfg : SolverConfig) (s0 : SolverState)
    (_hbs : 0 < cfg.batch_size) :
    ((trainFold o cfg (iterationsPerEpoch cfg) (numIterations cfg)
        (List.range (numIterations cfg)) s0).loss_history.length
          = s0.loss_history.length + numIterations cfg
      ∧ numIterations cfg = cfg.num_epochs * max (cfg.num_train / cfg.batch_size) 1)
    ∧ (Solver.train zeroOracle cfgScenario (solverReset cfgScenario demoState)).map
        (fun s => (s.loss_history.length, s.epoch)) = Except.ok (2, 1) := by
  refine ⟨⟨?_, rfl⟩, rfl⟩
  rw [trainFold_loss]
  simp

/-- C6 witness at the scenario configuration. -/
theorem claim_C6_witness :
    (0 < cfgScenario.batch_size)
    ∧ (((trainFold zeroOracle cfgScenario (iterationsPerEpoch cfgScenario)
          (numIterations cfgScenario) (List.range (numIterations cfgScenario))
          demoState).loss_history.length
            = demoState.loss_history.length + numIterations cfgScenario
        ∧ numIterations cfgScenario
            = cfgScenario.num_epochs * max (cfgScenario.num_train / cfgScenario.batch_size) 1)
      ∧ (Solver.train zeroOracle cfgScenario (solverReset cfgScenario demoState)).map
          (fun s => (s.loss_history.length, s.epoch)) = Except.ok (2, 1)) :=
  ⟨by decide, claim_C6 zeroOracle cfgScenario demoState (by decide)⟩

/-- C7: each executed iteration appends exactly one loss entry, each
evaluation-gate trigger appends exactly one entry to each accuracy history
(so all three histories are append-only extensions of whatever was there
before, and the two accuracy histories stay index-aligned), and from the
reset state the final lengths are the iteration count and the trigger
count. -/
theorem claim_C7 (o : TrainOracle) (cfg : SolverConfig) (s0 : SolverState)
    (_hbs : 0 < cfg.batch_size) (_hpe : 0 < cfg.print_every) :
    (trainFold o cfg (iterationsPerEpoch cfg) (numIterations cfg)
        (List.range (numIterations cfg)) s0).loss_history
      = s0.loss_history ++ (List.range (numIterations cfg)).map o.lossAt
    ∧ (trainFold o cfg (iterationsPerEpoch cfg) (numIterations cfg)
        (List.range (numIterations cfg)) s0).train_acc_history
      = s0.train_acc_history ++ (evalIters cfg).map o.trainAccAt
    ∧ (trainFold o cfg (iterationsPerEpoch cfg) (numIterations cfg)
        (List.range (numIterations cfg)) s0).val_acc_history
      = s0.val_acc_history ++ (evalIters cfg).map o.valAccAt
    ∧ (trainFold o cfg (iterationsPerEpoch cfg) (numIterations cfg)
        (List.range (numIterations cfg)) (solverReset cfg s0)).loss_history.length
      = numIterations cfg
    ∧ (trainFold o cfg (iterationsPerEpoch cfg) (numIterations cfg)
        (List.range (numIterations cfg)) (solverReset cfg s0)).train_acc_history.length
      = (evalIters cfg).length
    ∧ (trainFold o cfg (iterationsPerEpoch cfg) (numIterations cfg)
        (List.range (numIterations cfg)) (solverReset cfg s0)).val_acc_history.length
      = (evalIters cfg).length := by
  refine ⟨?_, ?_, ?_, ?_, ?_, ?_⟩
  · exact trainFold_loss o cfg _ _ _ s0
  · unfold evalIters; rw [trainFold_train_acc]
  · unfold evalIters; rw [trainFold_val_acc]
  · rw [trainFold_loss]; simp [solverReset]
  · unfold evalIters; rw [trainFold_train_acc]; simp [solverReset]
  · unfold evalIters; rw [trainFold_val_acc]; simp [solverReset]

/-- C7 witness at the scenario configuration with the constant-accuracy
oracle. -/
theorem claim_C7_witness :
    (0 < cfgScenario.batch_size ∧ 0 < cfgScenario.print_every)
    ∧ ((trainFold posOracle cfgScenario (iterationsPerEpoch cfgScenario)
          (numIterations cfgScenario) (List.range (numIterations cfgScenario))
          demoState).loss_history
        = demoState.loss_history
            ++ (List.range (numIterations cfgScenario)).map posOracle.lossAt
      ∧ (trainFold posOracle cfgScenario (iterationsPerEpoch cfgScenario)
          (numIterations cfgScenario) (List.range (numIterations cfgScenario))
          demoState).train_acc_history
        = demoState.train_acc_history ++ (evalIters cfgScenario).map posOracle.trainAccAt
      ∧ (trainFold posOracle cfgScenario (iterationsPerEpoch cfgScenario)
          (numIterations cfgScenario) (List.range (numIterations cfgScenario))
          demoState).val_acc_history
        = demoState.val_acc_history ++ (evalIters cfgScenario).map posOracle.valAccAt
      ∧ (trainFold posOracle cfgScenario (iterationsPerEpoch cfgScenario)
          (numIterations cfgScenario) (List.range (numIterations cfgScenario))
          (solverReset cfgScenario demoState)).loss_history.length
        = numIterations cfgScenario
      ∧ (trainFold posOracle cfgScenario (iterationsPerEpoch cfgScenario)
          (numIterations cfgScenario) (List.range (numIterations cfgScenario))
          (solverReset cfgScenario demoState)).train_acc_history.length
        = (evalIters cfgScenario).length
      ∧ (trainFold posOracle cfgScenario (iterationsPerEpoch cfgScenario)
          (numIterations cfgScenario) (List.range (numIterations cfgScenario))
          (solverReset cfgScenario demoState)).val_acc_history.length
        = (evalIters cfgScenario).length) :=
  ⟨⟨by decide, by decide⟩, claim_C7 posOracle cfgScenario demoState (by decide) (by decide)⟩

/-- C8: in the parallel path of Solver._step, the aggregated loss is the
arithmetic mean of the per-shard losses, and for any parameter key carried
with the same array length by every shard, the aggregated gradient array is
exactly the elementwise arithmetic mean of the per-shard gradient arrays. -/
theorem claim_C8 (losses : List ℚ) (gradses : List (String → List ℚ)) (p : String) (n : Nat)
    (hne : gradses ≠ []) (hlen : ∀ g ∈ gradses, (g p).length = n) :
    stepAggLoss losses = specShardLossMean losses
    ∧ stepAggGrad gradses p = (List.range n).map (specElementwiseMeanAt gradses p) := by
  constructor
  · rfl
  · cases gradses with
    | nil => exact absurd rfl hne
    | cons g0 rest =>
        have h0 : (g0 p).length = n := hlen g0 (by simp)
        simp only [stepAggGrad, npMeanAxis0, List.map_cons, List.headD_cons, h0]
        apply List.map_congr_left
        intro i _
        simp only [npMean, specElementwiseMeanAt, List.map_map, List.map_cons,
          List.length_cons, List.length_map, List.sum_cons]
        rfl

/-- Two equal-sized shards with concrete gradient arrays for key W. -/
def gradsesW : List (String → List ℚ) := [fun _ => [1, 3], fun _ => [3, 7]]

/-- C8 witness: two shards, a two-element parameter array. -/
theorem claim_C8_witness :
    (gradsesW ≠ [] ∧ ∀ g ∈ gradsesW, (g "W").length = 2)
    ∧ (stepAggLoss [1, 3] = specShardLossMean [1, 3]
      ∧ stepAggGrad gradsesW "W" = (List.range 2).map (specElementwiseMeanAt gradsesW "W")) :=
  ⟨⟨by simp [gradsesW], by decide⟩,
    claim_C8 [1, 3] gradsesW "W" 2 (by simp [gradsesW]) (by decide)⟩

/-- C9: Solver._reset gives every model parameter name its own freshly
allocated config cell whose contents copy the solver-level optim_config, so
mutating one parameter's cell in place (a dict write, in particular the
learning-rate decay multiplication) leaves every other parameter's cell
untouched. -/
theorem claim_C9 (params : List String) (oc : List (String × ℚ)) (p q k : String) (v : ℚ)
    (hnd : params.Nodup) (hp : p ∈ params) (hq : q ∈ params) (hpq : p ≠ q) :
    ∃ jp jq, (mkOptimConfigRefs params 0).lookup p = some jp
      ∧ (mkOptimConfigRefs params 0).lookup q = some jq
      ∧ jp ≠ jq
      ∧ heapRead (mkOptimConfigCells oc params) jp = oc
      ∧ heapRead (mkOptimConfigCells oc params) jq = oc
      ∧ heapRead (heapWrite (mkOptimConfigCells oc params) jp k v) jq
          = heapRead (mkOptimConfigCells oc params) jq := by
  obtain ⟨jp, hjp, _, hjplt⟩ := mkRefs_lookup_some params 0 p hp
  obtain ⟨jq, hjq, _, hjqlt⟩ := mkRefs_lookup_some params 0 q hq
  have hne := mkRefs_lookup_ne params 0 p q hnd hp hq hpq jp jq hjp hjq
  exact ⟨jp, jq, hjp, hjq, hne,
    mkCells_read oc params jp (by omega),
    mkCells_read oc params jq (by omega),
    heapWrite_ne _ jp jq k v hne⟩

/-- C9 witness: two parameters, a learning-rate write on the first. -/
theorem claim_C9_witness :
    ((["W1", "b1"] : List String).Nodup ∧ "W1" ∈ (["W1", "b1"] : List String)
      ∧ "b1" ∈ (["W1", "b1"] : List String) ∧ "W1" ≠ "b1")
    ∧ ∃ jp jq, (mkOptimConfigRefs ["W1", "b1"] 0).lookup "W1" = some jp
        ∧ (mkOptimConfigRefs ["W1", "b1"] 0).lookup "b1" = some jq
        ∧ jp ≠ jq
        ∧ heapRead (mkOptimConfigCells [("learning_rate", 1/100)] ["W1", "b1"]) jp
            = [("learning_rate", 1/100)]
        ∧ heapRead (mkOptimConfigCells [("learning_rate", 1/100)] ["W1", "b1"]) jq
            = [("learning_rate", 1/100)]
        ∧ heapRead (heapWrite (mkOptimConfigCells [("learning_rate", 1/100)] ["W1", "b1"])
              jp "learning_rate" 7) jq
            = heapRead (mkOptimConfigCells [("learning_rate", 1/100)] ["W1", "b1"]) jq :=
  ⟨⟨by decide, by decide, by decide, by decide⟩,
    claim_C9 ["W1", "b1"] [("learning_rate", 1/100)] "W1" "b1" "learning_rate" 7
      (by decide) (by decide) (by decide) (by decide)⟩

/-- C10: on every argument combination on which check_accuracy returns, the
solver state it hands back is exactly the one it was given: epoch, loss
history, both accuracy histories, best parameters, best accuracy, optimizer
configs and model parameter store are all unchanged. -/
theorem claim_C10 (cfg : SolverConfig) (model_scores : List ℚ → List ℚ)
    (s : SolverState) (X : List (List ℚ)) (y : Option (List Nat))
    (num_samples : Option Nat) (batch_size : Nat) (return_preds : Bool) (mask : List Nat) :
    (Solver.check_accuracy cfg model_scores s X y num_samples batch_size return_preds
        mask).map Prod.snd
      = (Solver.check_accuracy cfg model_scores s X y num_samples batch_size return_preds
          mask).map (fun _ => s) := by
  unfold Solver.check_accuracy
  dsimp only
  repeat' split
  all_goals rfl

/-- C4 counterexample: the claim says the initial best-accuracy value is
beaten by any valid accuracy, so a snapshot exists whenever an evaluation
occurs.  But best_val_acc starts at 0 and updates only on strict
improvement, so a run whose single evaluation reports the valid accuracy 0
takes no snapshot: train() ends with the initial empty best_params swapped
into the model, not the parameter store of the max-accuracy evaluation. -/
theorem claim_C4_counterexample :
    (Solver.train zeroOracle cfgOneIter (solverReset cfgOneIter demoState)).map
        (fun s => (s.val_acc_history, s.best_params, s.model_params))
      = Except.ok ([0], [], [])
    ∧ (evalIters cfgOneIter).map zeroOracle.paramsAt = [[("W", [5])]]
    ∧ ([] : Params) ∉ (evalIters cfgOneIter).map zeroOracle.paramsAt :=
  ⟨rfl, rfl, by decide⟩

/-- C4 (amended): provided some evaluation reports a strictly positive
validation accuracy (any positive accuracy beats the initial best value 0),
a best snapshot exists, and after train() completes the model's parameter
store equals the snapshot taken at the first evaluation event achieving the
maximum of the entire val-accuracy history (ties broken by first
occurrence); the pool must exist (num_processes not 1) for train() to reach
its normal return. -/
theorem claim_C4 (o : TrainOracle) (cfg : SolverConfig) (s0 : SolverState)
    (hnp : cfg.num_processes ≠ 1)
    (hex : ∃ it ∈ evalIters cfg, 0 < o.valAccAt it) :
    ∃ its s, (evalIters cfg).find? (isMaxIn o.valAccAt (evalIters cfg)) = some its
      ∧ Solver.train o cfg (solverReset cfg s0) = Except.ok s
      ∧ s.model_params = o.paramsAt its
      ∧ s.best_val_acc = o.valAccAt its := by
  obtain ⟨its, hfind, hrun⟩ :=
    runBest_first_max o.valAccAt o.paramsAt (evalIters cfg) 0 [] hex
  have hbest : bestPair (trainFold o cfg (iterationsPerEpoch cfg) (numIterations cfg)
      (List.range (numIterations cfg)) (solverReset cfg s0))
      = (o.valAccAt its, o.paramsAt its) := by
    rw [trainFold_best]
    have hreset : bestPair (solverReset cfg s0) = ((0 : ℚ), ([] : Params)) := rfl
    rw [hreset]
    exact hrun
  set s1 := trainFold o cfg (iterationsPerEpoch cfg) (numIterations cfg)
      (List.range (numIterations cfg)) (solverReset cfg s0) with hs1
  have hpool : s1.pool = true := by
    rw [hs1, trainFold_pool]
    simp [solverReset, hnp]
  have hbp : s1.best_params = o.paramsAt its := congrArg Prod.snd hbest
  have hbv : s1.best_val_acc = o.valAccAt its := congrArg Prod.fst hbest
  refine ⟨its, { { s1 with model_params := s1.best_params } with pool := false },
    hfind, ?_, hbp, hbv⟩
  show Solver.train o cfg (solverReset cfg s0) = _
  unfold Solver.train
  dsimp only
  rw [← hs1]
  have h2 : ({ s1 with model_params := s1.best_params } : SolverState).pool = true := hpool
  rw [if_pos h2]

/-- C4 witness: a one-iteration pooled run whose single evaluation reports
accuracy 1/2. -/
theorem claim_C4_witness :
    (cfgOneIter.num_processes ≠ 1 ∧ ∃ it ∈ evalIters cfgOneIter, 0 < posOracle.valAccAt it)
    ∧ ∃ its s, (evalIters cfgOneIter).find? (isMaxIn posOracle.valAccAt (evalIters cfgOneIter))
          = some its
        ∧ Solver.train posOracle cfgOneIter (solverReset cfgOneIter demoState) = Except.ok s
        ∧ s.model_params = posOracle.paramsAt its
        ∧ s.best_val_acc = posOracle.valAccAt its :=
  have hex : ∃ it ∈ evalIters cfgOneIter, 0 < posOracle.valAccAt it :=
    ⟨0, by decide, by norm_num [posOracle]⟩
  ⟨⟨by decide, hex⟩, claim_C4 posOracle cfgOneIter demoState (by decide) hex⟩
